import Mathlib

/-!
Shallow embedding of the periodic-task scheduler (`schedule.py`): the
`TimeWindow` time-of-day calculus, the `BaseTask`/`PeriodicTask` state
machine with its control operations, and the `Scheduler` dispatch
selection, together with theorems settling the specification claims.

Instants are modelled as natural numbers of seconds since an epoch;
a `datetime.time` value is its number of seconds after midnight
(always `< 86400` for a real Python `time` object, captured by
`TimeWindow.WF`).  Concurrency is modelled by the explicit event
fields (`stop_event`, `pause_event`) of a task, with the value of the
stop event observed after a blocking `pause_event.wait()` supplied as
an input (it is set by a concurrent `resume()` or `stop()`).
-/

namespace Sched

/-- Length of one calendar day in seconds (`timedelta(days=1)`). -/
def secondsPerDay : ℕ := 86400

/-- Model of `current.time()`: the time-of-day of an instant, in seconds after midnight. -/
def timeOfDay (t : ℕ) : ℕ := t % secondsPerDay

/-- Model of `datetime.combine(current.date(), time(0))`: midnight of the day of `t`. -/
def dayStart (t : ℕ) : ℕ := t - t % secondsPerDay

/-- Source dataclass `TimeWindow`: immutable pair of times-of-day (`start_time`, `end_time`). -/
structure TimeWindow where
  start_time : ℕ
  end_time : ℕ
deriving DecidableEq, Repr

/-- Well-formedness automatically guaranteed by Python `datetime.time`
objects: a time-of-day is strictly less than one day. -/
def TimeWindow.WF (w : TimeWindow) : Prop :=
  w.start_time < secondsPerDay ∧ w.end_time < secondsPerDay

instance (w : TimeWindow) : Decidable w.WF := by
  unfold TimeWindow.WF; infer_instance

/-- Source method `TimeWindow.is_in_window`: membership of an instant's time-of-day in
the window, inclusive at both ends; a window with `start_time > end_time`
wraps past midnight. -/
def TimeWindow.is_in_window (w : TimeWindow) (t : ℕ) : Bool :=
  if w.start_time ≤ w.end_time then
    decide (w.start_time ≤ timeOfDay t) && decide (timeOfDay t ≤ w.end_time)
  else
    decide (timeOfDay t ≥ w.start_time) || decide (timeOfDay t ≤ w.end_time)

/-- Source method `TimeWindow.next_window_start`: the next instant at which the window is
open, starting from `t` (`start_today = combine(current.date(), start_time)`). -/
def TimeWindow.next_window_start (w : TimeWindow) (t : ℕ) : ℕ :=
  let start_today := dayStart t + w.start_time
  if w.start_time ≤ w.end_time then
    if timeOfDay t > w.end_time then start_today + secondsPerDay
    else if timeOfDay t < w.start_time then start_today
    else t
  else
    if w.end_time < timeOfDay t ∧ timeOfDay t < w.start_time then start_today
    else t

/-! The task state machine (`BaseTask` / `PeriodicTask`). -/

/-- Source enumeration `TaskStatus`. -/
inductive TaskStatus where
  | PENDING | RUNNING | COMPLETED | FAILED | PAUSED | STOPPED | CANCELLED
deriving DecidableEq, Repr

/-- Source enumeration `TaskPriority`. -/
inductive TaskPriority where
  | LOW | NORMAL | HIGH | CRITICAL
deriving DecidableEq, Repr

/-- Source property `TaskPriority.value`. -/
def TaskPriority.value : TaskPriority → ℕ
  | .LOW => 0
  | .NORMAL => 1
  | .HIGH => 2
  | .CRITICAL => 3

/-- Mutable state of a `BaseTask`.  `stop_event` / `pause_event` are the
`threading.Event` flags (`pause_event = true` means the event is set,
i.e. the task is NOT pause-requested).  `statusTrace` records every
`_update_status` call as a `(old, new)` pair, newest first — exactly the
invocations of the status-change callbacks; `successCalls` /
`failureCalls` count the invocations of the success / failure callback
lists.  `_execution_timer` is omitted: it is never assigned a timer
anywhere in the source, so the `finally` block is a no-op. -/
structure Task where
  name : String
  priority : TaskPriority
  status : TaskStatus
  interval : Option ℕ
  last_run : Option ℕ
  next_run : Option ℕ
  error_count : ℕ
  time_windows : List TimeWindow
  max_running_time : Option ℕ
  stop_event : Bool
  pause_event : Bool
  execution_start_time : Option ℕ
  statusTrace : List (TaskStatus × TaskStatus)
  successCalls : ℕ
  failureCalls : ℕ
deriving DecidableEq, Repr

/-- Source constructor `BaseTask.__init__`: a freshly constructed task (PENDING, stop event
clear, pause event set, …). -/
def Task.init (name : String) (priority : TaskPriority) (interval : Option ℕ)
    (time_windows : List TimeWindow) (max_running_time : Option ℕ) : Task where
  name := name
  priority := priority
  status := .PENDING
  interval := interval
  last_run := none
  next_run := none
  error_count := 0
  time_windows := time_windows
  max_running_time := max_running_time
  stop_event := false
  pause_event := true
  execution_start_time := none
  statusTrace := []
  successCalls := 0
  failureCalls := 0

/-- Source constructor `PeriodicTask.__init__`: like `BaseTask.__init__` with a mandatory
interval, then `next_run = datetime.now()`. -/
def Task.initPeriodic (name : String) (interval : ℕ) (priority : TaskPriority)
    (time_windows : List TimeWindow) (max_running_time : Option ℕ)
    (now : ℕ) : Task :=
  { Task.init name priority (some interval) time_windows max_running_time with
    next_run := some now }

/-- Source method `BaseTask._update_status`: set the status and fire the status-change
callbacks (recorded in `statusTrace`). -/
def Task.updateStatus (t : Task) (s : TaskStatus) : Task :=
  { t with status := s, statusTrace := (t.status, s) :: t.statusTrace }

/-- Source method `BaseTask._check_interrupt`.  Here `stopAfterWait` is the value of
`stop_event` observed after `pause_event.wait()` returns (the wait
finishes only once a concurrent `resume()` or `stop()` has set the pause
event, which is reflected by `pause_event := true`). -/
def Task.checkInterrupt (t : Task) (stopAfterWait : Bool) : Bool × Task :=
  if t.stop_event then (false, t)
  else if !t.pause_event then
    let t1 := t.updateStatus .PAUSED
    let t2 := { t1 with pause_event := true, stop_event := stopAfterWait }
    if t2.stop_event then (false, t2)
    else (true, t2.updateStatus .PENDING)
  else (true, t)

/-- Source method `BaseTask._check_execution_time`: `False` iff a (truthy, i.e. nonzero)
`max_running_time` is configured, an execution start is recorded, and the
elapsed seconds at `now` exceed the limit. -/
def Task.checkExecutionTime (t : Task) (now : ℕ) : Bool :=
  match t.max_running_time, t.execution_start_time with
  | some m, some s => if 0 < m ∧ m < now - s then false else true
  | _, _ => true

/-- Source method `BaseTask.pause`: error on STOPPED; clear the pause event; transition
to PAUSED only if not RUNNING.  On error the state is unchanged. -/
def Task.pause (t : Task) : Except Unit Task :=
  if t.status = .STOPPED then .error ()
  else
    let t1 := { t with pause_event := false }
    if t1.status ≠ .RUNNING then .ok (t1.updateStatus .PAUSED) else .ok t1

/-- Source method `BaseTask.resume` (`now = datetime.now()`): error on STOPPED; set the
pause event; if PAUSED transition to PENDING and, if an interval is
configured, set `next_run = now + interval`. -/
def Task.resume (t : Task) (now : ℕ) : Except Unit Task :=
  if t.status = .STOPPED then .error ()
  else
    let t1 := { t with pause_event := true }
    if t1.status = .PAUSED then
      let t2 := t1.updateStatus .PENDING
      match t2.interval with
      | some i => .ok { t2 with next_run := some (now + i) }
      | none => .ok t2
    else .ok t1

/-- Source method `BaseTask.stop`: set the stop event, release the pause event,
transition to STOPPED. -/
def Task.stop (t : Task) : Task :=
  ({ t with stop_event := true, pause_event := true } : Task).updateStatus .STOPPED

/-- The loop `while not any(window.is_in_window(current_time) ...): current_time =
min(window.next_window_start(current_time) ...)` — the time-window
advancing loop of `_update_next_run_time`, with explicit fuel (`none`
models the unbounded Python loop not finishing within `fuel` steps). -/
def windowLoop (ws : List TimeWindow) : ℕ → ℕ → Option ℕ
  | 0, c =>
    if ws.any (fun w => w.is_in_window c) then some c else none
  | fuel + 1, c =>
    if ws.any (fun w => w.is_in_window c) then some c
    else windowLoop ws fuel (((ws.map (fun w => w.next_window_start c)).min?).getD c)

/-- Source method `BaseTask._update_next_run_time` (`now = datetime.now()`). -/
def Task.updateNextRunTime (t : Task) (now : ℕ) (fuel : ℕ) : Option Task :=
  match t.interval with
  | none => some { t with next_run := some now }
  | some i =>
    let base := match t.last_run with
      | none => now
      | some lr => lr + i
    if t.time_windows.isEmpty then some { t with next_run := some base }
    else (windowLoop t.time_windows fuel base).map
      fun c => { t with next_run := some c }

/-- Source method `BaseTask.reset`: clear the stop event, set the pause event, zero the
error count, transition to PENDING, recompute the next run time. -/
def Task.reset (t : Task) (now : ℕ) (fuel : ℕ) : Option Task :=
  (({ t with stop_event := false, pause_event := true, error_count := 0 }
    : Task).updateStatus .PENDING).updateNextRunTime now fuel

/-- Inputs of one `PeriodicTask.run` cycle that the code reads from the
clock, from the body, or from concurrently-signalled events:
`stopWait1/2/3` are the stop-event values observed after the pause wait
in the first / locked / post-body `_check_interrupt`; `bodyRaises` is
whether the task body raises; `nowStart`, `nowPost` and `nowComplete`
are `datetime.now()` at execution start, at the post-body time-limit
check, and at completion; `fuel` bounds the time-window loop of
`_update_next_run_time`. -/
structure RunEnv where
  stopWait1 : Bool
  stopWait2 : Bool
  stopWait3 : Bool
  bodyRaises : Bool
  nowStart : ℕ
  nowPost : ℕ
  nowComplete : ℕ
  fuel : ℕ
deriving DecidableEq, Repr

/-- Source method `PeriodicTask.run`: returns the boolean result together with the
updated task state (`none` only if the time-window loop of the success
path exceeds its fuel). -/
def Task.run (t : Task) (env : RunEnv) : Option (Bool × Task) :=
  match t.checkInterrupt env.stopWait1 with
  | (false, t1) => some (false, t1)
  | (true, t1) =>
  match t1.checkInterrupt env.stopWait2 with
  | (false, t2) => some (false, t2)
  | (true, t2) =>
  let t4 := { (t2.updateStatus .RUNNING) with execution_start_time := some env.nowStart }
  if env.bodyRaises then
    let t5 := ({ t4 with execution_start_time := none } : Task).updateStatus .FAILED
    some (false,
      { t5 with error_count := t5.error_count + 1, failureCalls := t5.failureCalls + 1 })
  else
    match t4.checkInterrupt env.stopWait3 with
    | (false, t5) => some (false, t5)
    | (true, t5) =>
    if !(t5.checkExecutionTime env.nowPost) then some (false, t5)
    else
      let t6 := ({ t5 with execution_start_time := none } : Task).updateStatus .COMPLETED
      let t7 := { t6 with last_run := some env.nowComplete }
      (t7.updateNextRunTime env.nowComplete env.fuel).map
        fun t8 => (true, { t8 with successCalls := t8.successCalls + 1 })

/-! The scheduler. -/

/-- Source enumeration `SchedulerMode`. -/
inductive SchedulerMode where
  | FOREGROUND | BACKGROUND
deriving DecidableEq, Repr

/-- Scheduler state: the `_stop_event` flag, whether `_thread` is a live
thread (`_thread is not None and _thread.is_alive()`), and the mode. -/
structure Scheduler where
  stop_event : Bool
  thread_alive : Bool
  mode : SchedulerMode
deriving DecidableEq, Repr

/-- Source constructor `Scheduler.__init__`: a fresh `threading.Event()` is unset and no
dispatcher thread exists. -/
def Scheduler.init (mode : SchedulerMode) : Scheduler where
  stop_event := false
  thread_alive := false
  mode := mode

/-- Source property `Scheduler.is_running`. -/
def Scheduler.is_running (s : Scheduler) : Bool :=
  s.thread_alive || (!s.stop_event && decide (s.mode = .FOREGROUND))

/-- Source method `Scheduler.start`: raise `RuntimeError` if `is_running`; otherwise
clear the stop event and either spawn the dispatcher thread (BACKGROUND)
or run the dispatch loop on the caller (FOREGROUND). -/
def Scheduler.start (s : Scheduler) : Except Unit Scheduler :=
  if s.is_running then .error ()
  else
    let s1 := { s with stop_event := false }
    if s1.mode = .BACKGROUND then .ok { s1 with thread_alive := true }
    else .ok s1

/-- The per-task part of the dispatcher's ready filter
(`current_time = datetime.now()`): status not RUNNING/STOPPED/CANCELLED,
`next_run` non-None and `≤ now`, and `_is_in_time_window()`. -/
def Task.ready (t : Task) (now : ℕ) : Bool :=
  decide (t.status ≠ .RUNNING ∧ t.status ≠ .STOPPED ∧ t.status ≠ .CANCELLED)
  && (match t.next_run with
      | some nr => decide (nr ≤ now)
      | none => false)
  && (t.time_windows.isEmpty || t.time_windows.any (fun w => w.is_in_window now))

/-- Stable insertion of a task into a priority-descending list: the task
passes exactly the tasks of strictly greater priority.  Folding this over
the snapshot models `ready_tasks.sort()`, a stable sort under
`BaseTask.__lt__` (which inverts the priority comparison, so the sorted
order is priority-descending with the original order kept among equal
priorities — precisely what Python's stable `list.sort` produces). -/
def insertByPriority (a : Task) : List Task → List Task
  | [] => [a]
  | b :: bs =>
    if a.priority.value < b.priority.value then b :: insertByPriority a bs
    else a :: b :: bs

/-- Model of `ready_tasks.sort()` under `BaseTask.__lt__`. -/
def sortByPriority (ts : List Task) : List Task :=
  ts.foldr insertByPriority []

/-- One dispatcher tick's execution order: filter the ready tasks and
sort them (status and `next_run` checks against `now`). -/
def dispatchOrder (ts : List Task) (now : ℕ) : List Task :=
  sortByPriority (ts.filter (fun t => t.ready now))

/-! Operation sequences on a task (for the STOPPED-terminality claim). -/

/-- One externally invokable task operation, with the inputs it reads. -/
inductive TaskOp where
  | opRun (env : RunEnv)
  | opPause
  | opResume (now : ℕ)
  | opStop
  | opReset (now : ℕ) (fuel : ℕ)
deriving Repr

/-- Apply one operation.  A raised `TaskControlError` leaves the state
unchanged (both `pause` and `resume` raise before mutating anything);
`none` models a non-terminating time-window loop. -/
def Task.applyOp (t : Task) : TaskOp → Option Task
  | .opRun env => (t.run env).map Prod.snd
  | .opPause => match t.pause with
    | .ok t1 => some t1
    | .error _ => some t
  | .opResume now => match t.resume now with
    | .ok t1 => some t1
    | .error _ => some t
  | .opStop => some t.stop
  | .opReset now fuel => t.reset now fuel

/-- Apply a sequence of operations in order. -/
def Task.applyOps (t : Task) : List TaskOp → Option Task
  | [] => some t
  | op :: ops => (t.applyOp op).bind (fun t1 => t1.applyOps ops)

/-- Operations other than `reset`. -/
def TaskOp.isReset : TaskOp → Bool
  | .opReset _ _ => true
  | _ => false

/-! Concrete states used to instantiate the claims. -/

/-- The window 09:00–17:00 (seconds after midnight). -/
def wDay : TimeWindow := ⟨32400, 61200⟩

/-- The window 10:00–11:00. -/
def wMorning : TimeWindow := ⟨36000, 39600⟩

/-- A plain periodic task: interval 60 s, no windows, no time limit. -/
def tPlain : Task := Task.init "plain" .NORMAL (some 60) [] none

/-- A task observed while its body is executing (status RUNNING). -/
def tRunning : Task := { tPlain with status := .RUNNING }

/-- A paused task constrained to the 10:00–11:00 window. -/
def tWindowedPaused : Task :=
  { Task.init "windowed" .NORMAL (some 60) [wMorning] none with
    status := .PAUSED, pause_event := false, next_run := some 0 }

/-- A periodic task with a 5-second execution time limit, due at 0. -/
def tLimited : Task := Task.initPeriodic "limited" 60 .NORMAL [] (some 5) 0

/-- A task on which `stop()`'s stop event has been signalled. -/
def tStopRequested : Task := { tPlain with stop_event := true }

/-- A run cycle with no interrupt signals and a non-raising body. -/
def envPlain : RunEnv := ⟨false, false, false, false, 5, 6, 7, 1⟩

/-- A run cycle whose body raises. -/
def envRaise : RunEnv := ⟨false, false, false, true, 5, 6, 7, 1⟩

/-- A run cycle whose post-body check happens 10 s after execution start. -/
def envSlow : RunEnv := ⟨false, false, false, false, 0, 10, 11, 1⟩

/-- A control sequence without `reset`. -/
def opsNoReset : List TaskOp := [.opPause, .opResume 5, .opStop, .opRun envPlain]

/-- The four simultaneously due tasks of the priority-ordering example,
in registration order LOW, CRITICAL, NORMAL, HIGH, all due at instant 0. -/
def fourTasks : List Task :=
  [Task.initPeriodic "low" 60 .LOW [] none 0,
   Task.initPeriodic "crit" 60 .CRITICAL [] none 0,
   Task.initPeriodic "norm" 60 .NORMAL [] none 0,
   Task.initPeriodic "high" 60 .HIGH [] none 0]

/-! Basic arithmetic facts about `timeOfDay` and `dayStart`. -/

theorem secondsPerDay_pos : 0 < secondsPerDay := by decide

theorem timeOfDay_lt (t : ℕ) : timeOfDay t < secondsPerDay :=
  Nat.mod_lt _ secondsPerDay_pos

theorem dayStart_add_timeOfDay (t : ℕ) : dayStart t + timeOfDay t = t := by
  unfold dayStart timeOfDay
  exact Nat.sub_add_cancel (Nat.mod_le _ _)

theorem dayStart_mod (t : ℕ) : dayStart t % secondsPerDay = 0 := by
  unfold dayStart secondsPerDay
  omega

theorem timeOfDay_dayStart_add (t s : ℕ) (hs : s < secondsPerDay) :
    timeOfDay (dayStart t + s) = s := by
  unfold timeOfDay dayStart secondsPerDay at *
  omega

/-! Correctness of `next_window_start`: it is the least instant `≥ t`
that satisfies `is_in_window`. -/

theorem next_window_start_ge (w : TimeWindow) (t : ℕ) :
    t ≤ w.next_window_start t := by
  unfold TimeWindow.next_window_start timeOfDay dayStart secondsPerDay
  dsimp only
  split <;> first
    | omega
    | (split <;> first | omega | (split <;> omega))

theorem next_window_start_le (w : TimeWindow) (t : ℕ) :
    w.next_window_start t ≤ dayStart t + secondsPerDay + w.start_time := by
  unfold TimeWindow.next_window_start timeOfDay dayStart secondsPerDay
  dsimp only
  split <;> first
    | omega
    | (split <;> first | omega | (split <;> omega))

theorem next_window_start_in_window (w : TimeWindow) (t : ℕ) (hw : w.WF) :
    w.is_in_window (w.next_window_start t) = true := by
  obtain ⟨h1, h2⟩ := hw
  unfold TimeWindow.is_in_window TimeWindow.next_window_start timeOfDay dayStart
    secondsPerDay at *
  dsimp only
  repeat' split
  all_goals try simp only [Bool.and_eq_true, Bool.or_eq_true, decide_eq_true_eq,
    ge_iff_le]
  all_goals omega

theorem next_window_start_min (w : TimeWindow) (t u : ℕ) (hw : w.WF)
    (htu : t ≤ u) (hu : w.is_in_window u = true) :
    w.next_window_start t ≤ u := by
  obtain ⟨h1, h2⟩ := hw
  unfold TimeWindow.is_in_window TimeWindow.next_window_start timeOfDay dayStart
    secondsPerDay at *
  dsimp only
  split at hu <;> repeat' split
  all_goals try simp only [Bool.and_eq_true, Bool.or_eq_true, decide_eq_true_eq,
    ge_iff_le] at hu
  all_goals omega


/-! The time-window advancing loop. -/

theorem windowLoop_of_any (ws : List TimeWindow) (c : ℕ)
    (h : ws.any (fun w => w.is_in_window c) = true) (fuel : ℕ) :
    windowLoop ws fuel c = some c := by
  cases fuel <;> simp [windowLoop, h]

theorem windowLoop_spec (ws : List TimeWindow) (base fuel : ℕ)
    (hne : ws ≠ []) (hwf : ∀ w ∈ ws, w.WF) (hfuel : 1 ≤ fuel) :
    ∃ c, windowLoop ws fuel base = some c
      ∧ ws.any (fun w => w.is_in_window c) = true
      ∧ base ≤ c ∧ c < dayStart base + 2 * secondsPerDay := by
  have hday : 0 < secondsPerDay := secondsPerDay_pos
  have hbase := dayStart_add_timeOfDay base
  have hlt := timeOfDay_lt base
  cases h : ws.any (fun w => w.is_in_window base) with
  | true =>
    exact ⟨base, windowLoop_of_any ws base h fuel, h, le_refl _, by omega⟩
  | false =>
    obtain ⟨f, rfl⟩ : ∃ f, fuel = f + 1 := ⟨fuel - 1, by omega⟩
    rcases hm : (ws.map fun w => w.next_window_start base).min? with _ | m
    · rw [List.min?_eq_none_iff, List.map_eq_nil_iff] at hm
      exact absurd hm hne
    · have hmem := (List.min?_eq_some_iff'.mp hm).1
      rw [List.mem_map] at hmem
      obtain ⟨w, hw, hwm⟩ := hmem
      have hin : ws.any (fun x => x.is_in_window m) = true := by
        rw [List.any_eq_true]
        exact ⟨w, hw, hwm ▸ next_window_start_in_window w base (hwf w hw)⟩
      refine ⟨m, ?_, hin, ?_, ?_⟩
      · rw [windowLoop, h, hm]
        exact windowLoop_of_any ws m hin f
      · exact hwm ▸ next_window_start_ge w base
      · have h1 := next_window_start_le w base
        have h2 := (hwf w hw).1
        omega

/-! Frame properties of the task operations. -/

theorem checkInterrupt_frame (t : Task) (s b : Bool) (t' : Task)
    (h : t.checkInterrupt s = (b, t')) :
    t'.last_run = t.last_run ∧ t'.next_run = t.next_run
    ∧ t'.error_count = t.error_count ∧ t'.successCalls = t.successCalls
    ∧ t'.failureCalls = t.failureCalls
    ∧ t'.execution_start_time = t.execution_start_time
    ∧ t'.max_running_time = t.max_running_time
    ∧ ∃ tr, t'.statusTrace = tr ++ t.statusTrace
        ∧ ∀ e ∈ tr, e.2 = TaskStatus.PAUSED ∨ e.2 = TaskStatus.PENDING := by
  unfold Task.checkInterrupt Task.updateStatus at h
  dsimp only at h
  split at h
  · cases h
    exact ⟨rfl, rfl, rfl, rfl, rfl, rfl, rfl, [], rfl, by simp⟩
  · split at h
    · split at h
      · cases h
        exact ⟨rfl, rfl, rfl, rfl, rfl, rfl, rfl, [(t.status, .PAUSED)], rfl, by simp⟩
      · cases h
        exact ⟨rfl, rfl, rfl, rfl, rfl, rfl, rfl,
          [(.PAUSED, .PENDING), (t.status, .PAUSED)], rfl, by simp⟩
    · cases h
      exact ⟨rfl, rfl, rfl, rfl, rfl, rfl, rfl, [], rfl, by simp⟩

theorem updateNextRunTime_frame (t : Task) (now fuel : ℕ) (t' : Task)
    (h : t.updateNextRunTime now fuel = some t') :
    t'.status = t.status ∧ t'.error_count = t.error_count
    ∧ t'.statusTrace = t.statusTrace ∧ t'.successCalls = t.successCalls
    ∧ t'.failureCalls = t.failureCalls ∧ t'.last_run = t.last_run := by
  unfold Task.updateNextRunTime at h
  rcases hi : t.interval with _ | i <;> simp only [hi] at h
  · cases h
    exact ⟨rfl, rfl, rfl, rfl, rfl, rfl⟩
  · split at h
    · cases h
      exact ⟨rfl, rfl, rfl, rfl, rfl, rfl⟩
    · rw [Option.map_eq_some'] at h
      obtain ⟨c, hc, hf⟩ := h
      subst hf
      exact ⟨rfl, rfl, rfl, rfl, rfl, rfl⟩

/-- A STOPPED task with its stop event set stays STOPPED (with the stop
event still set) under any single operation other than `reset`. -/
theorem applyOp_stopped (t : Task) (op : TaskOp) (t' : Task)
    (hs : t.status = .STOPPED) (he : t.stop_event = true)
    (hnr : op.isReset = false) (h : t.applyOp op = some t') :
    t'.status = .STOPPED ∧ t'.stop_event = true := by
  cases op with
  | opRun env =>
    simp only [Task.applyOp, Task.run, Task.checkInterrupt, he, if_true] at h
    cases h
    exact ⟨hs, he⟩
  | opPause =>
    simp only [Task.applyOp, Task.pause, hs, if_true, reduceCtorEq] at h
    cases h
    exact ⟨hs, he⟩
  | opResume now =>
    simp only [Task.applyOp, Task.resume, hs, if_true, reduceCtorEq] at h
    cases h
    exact ⟨hs, he⟩
  | opStop =>
    simp only [Task.applyOp, Task.stop, Task.updateStatus] at h
    cases h
    exact ⟨rfl, rfl⟩
  | opReset now fuel =>
    simp [TaskOp.isReset] at hnr

/-! Claim theorems. -/

/-- C1: the claim says a newly constructed scheduler starts without error,
and that the already-running error is raised iff the scheduler is actually
running.  The code violates this: for a fresh FOREGROUND scheduler — never
started, hence not running — `is_running` is already `true` (the fresh stop
event is unset and the mode is FOREGROUND), so `start()` raises
`RuntimeError("Scheduler is already running")`.  A fresh BACKGROUND
scheduler starts normally, spawning the dispatcher thread. -/
theorem c1_fresh_foreground_start_raises :
    (Scheduler.init .FOREGROUND).is_running = true
    ∧ (Scheduler.init .FOREGROUND).start = .error ()
    ∧ (Scheduler.init .BACKGROUND).is_running = false
    ∧ (Scheduler.init .BACKGROUND).start =
        .ok { stop_event := false, thread_alive := true, mode := .BACKGROUND } := by
  exact ⟨rfl, rfl, rfl, rfl⟩

/-- C2 counterexample: the claim says no operation sequence ever moves a
task out of STOPPED, but `reset()` does: after `stop()` then `reset()`
the status is PENDING, not STOPPED. -/
theorem c2_counterexample :
    tPlain.stop.status = .STOPPED
    ∧ (tPlain.stop.applyOps [.opReset 0 1]).map Task.status = some .PENDING
    ∧ (tPlain.stop.applyOps [.opReset 0 1]).map Task.status ≠ some .STOPPED := by
  exact ⟨rfl, rfl, by decide⟩

/-- C2 amended: once `stop()` has set status STOPPED, every subsequent
sequence of `run`/`pause`/`resume`/`stop` operations (i.e. any sequence
not containing `reset`) leaves the status STOPPED; only `reset` can leave
the STOPPED state. -/
theorem c2_stopped_terminal_without_reset (t : Task) (ops : List TaskOp) (t' : Task)
    (hops : ∀ op ∈ ops, op.isReset = false)
    (happ : t.stop.applyOps ops = some t') : t'.status = .STOPPED := by
  have key : ∀ (ops : List TaskOp) (u u' : Task), u.status = .STOPPED →
      u.stop_event = true → (∀ op ∈ ops, op.isReset = false) →
      u.applyOps ops = some u' → u'.status = .STOPPED ∧ u'.stop_event = true := by
    intro ops
    induction ops with
    | nil =>
      intro u u' hs he _ happ
      cases happ
      exact ⟨hs, he⟩
    | cons op rest ih =>
      intro u u' hs he hops happ
      simp only [Task.applyOps, Option.bind_eq_some] at happ
      obtain ⟨u1, h1, h2⟩ := happ
      obtain ⟨hs1, he1⟩ := applyOp_stopped u op u1 hs he
        (hops op (List.mem_cons_self op rest)) h1
      exact ih u1 u' hs1 he1 (fun o ho => hops o (List.mem_cons_of_mem op ho)) h2
  exact (key ops t.stop t' rfl rfl hops happ).1

/-- C2 amended, witness: the concrete no-`reset` sequence
pause, resume, stop, run applied after `stop()` leaves the task STOPPED. -/
theorem c2_witness :
    ∃ t', tPlain.stop.applyOps opsNoReset = some t' ∧ t'.status = .STOPPED := by
  have happ : tPlain.stop.applyOps opsNoReset =
      some (((tPlain.stop.applyOps opsNoReset).getD tPlain) : Task) := by decide
  exact ⟨_, happ, c2_stopped_terminal_without_reset tPlain opsNoReset _ (by decide) happ⟩

/-- C3 counterexample: the claim says `pause()` leaves every non-STOPPED
task — *including a RUNNING one* — with status PAUSED when it returns, but
on a RUNNING task `pause()` only clears the pause event and returns with
the status still RUNNING (the transition happens later, at the running
cycle's next interrupt check). -/
theorem c3_counterexample :
    tRunning.status = .RUNNING
    ∧ tRunning.status ≠ .STOPPED
    ∧ tRunning.pause.map Task.status = .ok .RUNNING
    ∧ tRunning.pause.map Task.status ≠ .ok .PAUSED := by
  refine ⟨rfl, by decide, rfl, ?_⟩
  intro h
  rw [show tRunning.pause.map Task.status = .ok .RUNNING from rfl] at h
  cases h

/-- C3 amended: `pause()` on a task that is neither STOPPED nor RUNNING
yields status PAUSED, and a subsequent `resume()` yields PENDING with
`next_run = now + interval`; a RUNNING task is only flagged by `pause()`
and transitions at its next interrupt check. -/
theorem c3_pause_resume (t : Task) (i now : ℕ)
    (h1 : t.status ≠ .STOPPED) (h2 : t.status ≠ .RUNNING)
    (hi : t.interval = some i) :
    ∃ t1, t.pause = .ok t1 ∧ t1.status = .PAUSED
      ∧ ∃ t2, t1.resume now = .ok t2 ∧ t2.status = .PENDING
          ∧ t2.next_run = some (now + i) := by
  have hp : t.pause = .ok (({ t with pause_event := false } : Task).updateStatus .PAUSED) := by
    unfold Task.pause
    rw [if_neg h1]
    dsimp only
    rw [if_pos h2]
  refine ⟨_, hp, rfl, ?_⟩
  simp only [Task.resume, Task.updateStatus, hi]
  exact ⟨_, rfl, rfl, rfl⟩

/-- C3 amended, witness: a PENDING task paused then resumed at instant 100
with interval 60 ends PENDING with `next_run = 160`. -/
theorem c3_witness :
    ∃ t1, tPlain.pause = .ok t1 ∧ t1.status = .PAUSED
      ∧ ∃ t2, t1.resume 100 = .ok t2 ∧ t2.status = .PENDING
          ∧ t2.next_run = some (100 + 60) :=
  c3_pause_resume tPlain 60 100 (by decide) (by decide) rfl

/-- C4 counterexample: the claim says every operation that (re)computes
`next_run` of a windowed task lands inside some window, but `resume()`
sets `next_run = now + interval` with no window adjustment: resuming the
10:00–11:00-windowed task at 12:00:00 yields `next_run` 12:01:00, which
is inside no configured window. -/
theorem c4_counterexample :
    tWindowedPaused.time_windows ≠ []
    ∧ (tWindowedPaused.resume 43200).map
        (fun t => (t.next_run, t.time_windows.any (fun w => w.is_in_window 43260)))
      = .ok (some 43260, false) := by
  exact ⟨by decide, rfl⟩

/-- C4 amended: whenever `next_run` is recomputed by
`_update_next_run_time` (i.e. on `reset` and on successful completion of
`run`) for a task with an interval and at least one well-formed time
window, the result lies inside some configured window; `resume` and the
`PeriodicTask` constructor set `next_run` directly, without window
adjustment. -/
theorem c4_update_next_run_in_window (t : Task) (i now fuel : ℕ)
    (hi : t.interval = some i) (hne : t.time_windows ≠ [])
    (hwf : ∀ w ∈ t.time_windows, w.WF) (hfuel : 1 ≤ fuel) :
    ∃ t' c, t.updateNextRunTime now fuel = some t' ∧ t'.next_run = some c
      ∧ t.time_windows.any (fun w => w.is_in_window c) = true := by
  obtain ⟨c, hloop, hin, -, -⟩ := windowLoop_spec t.time_windows
    (match t.last_run with | none => now | some lr => lr + i) fuel hne hwf hfuel
  have hupd : t.updateNextRunTime now fuel = some { t with next_run := some c } := by
    unfold Task.updateNextRunTime
    rw [hi]
    dsimp only
    rw [if_neg (by simpa [List.isEmpty_iff] using hne), hloop]
    rfl
  exact ⟨_, c, hupd, rfl, hin⟩

/-- C4 amended, witness: recomputing `next_run` at 18:00 for a task whose
last run was at 18:00 with a 60 s interval and window 09:00–17:00 lands
inside the window. -/
theorem c4_witness :
    ∃ t' c, ({ Task.init "w" .NORMAL (some 60) [wDay] none with
        last_run := some 64800 } : Task).updateNextRunTime 0 1 = some t'
      ∧ t'.next_run = some c
      ∧ [wDay].any (fun w => w.is_in_window c) = true :=
  c4_update_next_run_in_window
    { Task.init "w" .NORMAL (some 60) [wDay] none with last_run := some 64800 }
    60 0 1 rfl (by decide) (by decide) (by decide)

/-- C5: for a well-formed window, `next_window_start t` is the smallest
instant `≥ t` satisfying `is_in_window`; in particular it returns `t`
unchanged when `t` is already inside the window, and for a non-wrapping
window with time-of-day past the end it returns the window start on the
next calendar day. -/
theorem c5_next_window_start_minimal (w : TimeWindow) (t : ℕ) (hw : w.WF) :
    (t ≤ w.next_window_start t
      ∧ w.is_in_window (w.next_window_start t) = true
      ∧ ∀ u, t ≤ u → w.is_in_window u = true → w.next_window_start t ≤ u)
    ∧ (w.is_in_window t = true → w.next_window_start t = t)
    ∧ (w.start_time ≤ w.end_time → w.end_time < timeOfDay t →
        w.next_window_start t = dayStart t + w.start_time + secondsPerDay) := by
  refine ⟨⟨next_window_start_ge w t, next_window_start_in_window w t hw,
    fun u htu hu => next_window_start_min w t u hw htu hu⟩, ?_, ?_⟩
  · intro hin
    obtain ⟨h1, h2⟩ := hw
    unfold TimeWindow.is_in_window TimeWindow.next_window_start timeOfDay dayStart
      secondsPerDay at *
    dsimp only
    split at hin <;> repeat' split
    all_goals try simp only [Bool.and_eq_true, Bool.or_eq_true, decide_eq_true_eq,
      ge_iff_le] at hin
    all_goals omega
  · intro hle hpast
    obtain ⟨h1, h2⟩ := hw
    unfold TimeWindow.next_window_start timeOfDay dayStart secondsPerDay at *
    dsimp only
    repeat' split
    all_goals omega

/-- C5 witness: window 09:00–17:00 at instant 18:00 of day 0. -/
theorem c5_witness :
    wDay.WF
    ∧ ((64800 ≤ wDay.next_window_start 64800
        ∧ wDay.is_in_window (wDay.next_window_start 64800) = true
        ∧ ∀ u, 64800 ≤ u → wDay.is_in_window u = true →
            wDay.next_window_start 64800 ≤ u)
      ∧ (wDay.is_in_window 64800 = true → wDay.next_window_start 64800 = 64800)
      ∧ (wDay.start_time ≤ wDay.end_time → wDay.end_time < timeOfDay 64800 →
          wDay.next_window_start 64800 = dayStart 64800 + wDay.start_time
            + secondsPerDay)) :=
  ⟨by decide, c5_next_window_start_minimal wDay 64800 (by decide)⟩

/-- C9: for a nonempty list of well-formed windows, the advancing loop of
`_update_next_run_time` terminates (one advancing step already suffices,
so any fuel `≥ 1` does), and the instant it reaches is inside some window
and earlier than the end of the calendar day after the starting one. -/
theorem c9_window_loop_terminates (ws : List TimeWindow) (base fuel : ℕ)
    (hne : ws ≠ []) (hwf : ∀ w ∈ ws, w.WF) (hfuel : 1 ≤ fuel) :
    ∃ c, windowLoop ws fuel base = some c
      ∧ ws.any (fun w => w.is_in_window c) = true
      ∧ base ≤ c ∧ c < dayStart base + 2 * secondsPerDay :=
  windowLoop_spec ws base fuel hne hwf hfuel

/-- C9 witness: the single window 09:00–17:00 starting from 18:00. -/
theorem c9_witness :
    ∃ c, windowLoop [wDay] 1 64800 = some c
      ∧ [wDay].any (fun w => w.is_in_window c) = true
      ∧ 64800 ≤ c ∧ c < dayStart 64800 + 2 * secondsPerDay :=
  c9_window_loop_terminates [wDay] 64800 1 (by decide) (by decide) (by decide)

theorem pause_pending_not_terminal {s : TaskStatus}
    (h : s = .PAUSED ∨ s = .PENDING) : s ≠ .COMPLETED ∧ s ≠ .FAILED := by
  rcases h with rfl | rfl <;> exact ⟨by decide, by decide⟩

/-- C6: a run cycle that returns `False` without its body raising — i.e.
one aborted by a stop request, a pause request followed by stop, or the
`max_running_time` limit — leaves `last_run` and `next_run` unchanged and
performs no status transition into COMPLETED or FAILED (so no success or
failure callback transition fires). -/
theorem c6_abort_frame (t : Task) (env : RunEnv) (t' : Task)
    (hb : env.bodyRaises = false)
    (h : t.run env = some (false, t')) :
    t'.last_run = t.last_run ∧ t'.next_run = t.next_run
    ∧ ∃ tr, t'.statusTrace = tr ++ t.statusTrace
        ∧ ∀ e ∈ tr, e.2 ≠ TaskStatus.COMPLETED ∧ e.2 ≠ TaskStatus.FAILED := by
  unfold Task.run at h
  rcases h1 : t.checkInterrupt env.stopWait1 with ⟨b1, t1⟩
  rw [h1] at h
  obtain ⟨f1l, f1n, -, -, -, -, -, tr1, htr1, htr1P⟩ :=
    checkInterrupt_frame t env.stopWait1 b1 t1 h1
  cases b1 with
  | false =>
    dsimp only at h
    cases h
    exact ⟨f1l, f1n, tr1, htr1,
      fun e he => pause_pending_not_terminal (htr1P e he)⟩
  | true =>
    dsimp only at h
    rcases h2 : t1.checkInterrupt env.stopWait2 with ⟨b2, t2⟩
    rw [h2] at h
    obtain ⟨f2l, f2n, -, -, -, -, -, tr2, htr2, htr2P⟩ :=
      checkInterrupt_frame t1 env.stopWait2 b2 t2 h2
    cases b2 with
    | false =>
      dsimp only at h
      cases h
      refine ⟨f2l.trans f1l, f2n.trans f1n, tr2 ++ tr1, ?_, ?_⟩
      · rw [htr2, htr1, List.append_assoc]
      · intro e he
        rw [List.mem_append] at he
        rcases he with he | he
        · exact pause_pending_not_terminal (htr2P e he)
        · exact pause_pending_not_terminal (htr1P e he)
    | true =>
      dsimp only at h
      rw [hb] at h
      simp only [Bool.false_eq_true, if_false] at h
      rcases h3 : ({ (t2.updateStatus .RUNNING) with
          execution_start_time := some env.nowStart } : Task).checkInterrupt
          env.stopWait3 with ⟨b3, t5⟩
      rw [h3] at h
      obtain ⟨f3l, f3n, -, -, -, -, -, tr3, htr3, htr3P⟩ :=
        checkInterrupt_frame _ env.stopWait3 b3 t5 h3
      have hmid : ∀ u : Task, u = t5 →
          u.last_run = t.last_run ∧ u.next_run = t.next_run
          ∧ ∃ tr, u.statusTrace = tr ++ t.statusTrace
              ∧ ∀ e ∈ tr, e.2 ≠ TaskStatus.COMPLETED ∧ e.2 ≠ TaskStatus.FAILED := by
        rintro u rfl
        refine ⟨f3l.trans (f2l.trans f1l), f3n.trans (f2n.trans f1n),
          tr3 ++ (t2.status, .RUNNING) :: (tr2 ++ tr1), ?_, ?_⟩
        · rw [htr3]
          show tr3 ++ (t2.status, TaskStatus.RUNNING) :: t2.statusTrace = _
          rw [htr2, htr1]
          simp [List.append_assoc]
        · intro e he
          simp only [List.mem_append, List.mem_cons] at he
          rcases he with he | he | he
          · exact pause_pending_not_terminal (htr3P e he)
          · subst he
            exact ⟨by simp, by simp⟩
          · rcases he with he | he
            · exact pause_pending_not_terminal (htr2P e he)
            · exact pause_pending_not_terminal (htr1P e he)
      cases b3 with
      | false =>
        dsimp only at h
        cases h
        exact hmid t' rfl
      | true =>
        dsimp only at h
        cases hexec : t5.checkExecutionTime env.nowPost with
        | false =>
          rw [hexec] at h
          simp only [Bool.not_false, if_true] at h
          cases h
          exact hmid t' rfl
        | true =>
          rw [hexec] at h
          simp only [Bool.not_true, Bool.false_eq_true, if_false] at h
          rw [Option.map_eq_some'] at h
          obtain ⟨t8, -, hfeq⟩ := h
          simp at hfeq
/-- C6 witness: a run cycle with a non-raising body on a task whose stop
event is set aborts at the first interrupt check, changing nothing. -/
theorem c6_witness :
    envPlain.bodyRaises = false
    ∧ tStopRequested.run envPlain = some (false, tStopRequested)
    ∧ (tStopRequested.last_run = tStopRequested.last_run
      ∧ tStopRequested.next_run = tStopRequested.next_run
      ∧ ∃ tr, tStopRequested.statusTrace = tr ++ tStopRequested.statusTrace
          ∧ ∀ e ∈ tr, e.2 ≠ TaskStatus.COMPLETED ∧ e.2 ≠ TaskStatus.FAILED) :=
  ⟨rfl, rfl, c6_abort_frame tStopRequested envPlain tStopRequested rfl rfl⟩

/-- C7: a run cycle whose body raises (reached with no stop/pause pending)
transitions the task to FAILED, increments `error_count` by exactly one,
invokes the failure callbacks once, and leaves `last_run` and `next_run`
unchanged; moreover no successful run cycle ever changes `error_count`. -/
theorem c7_body_error (t : Task) (env : RunEnv)
    (hstop : t.stop_event = false) (hpause : t.pause_event = true)
    (hraise : env.bodyRaises = true) :
    (∃ t', t.run env = some (false, t')
      ∧ t'.status = .FAILED
      ∧ t'.error_count = t.error_count + 1
      ∧ t'.failureCalls = t.failureCalls + 1
      ∧ t'.last_run = t.last_run ∧ t'.next_run = t.next_run)
    ∧ ∀ (env2 : RunEnv) (u u' : Task), u.run env2 = some (true, u') →
        u'.error_count = u.error_count := by
  constructor
  · have hrun : t.run env = some (false,
        { (({ ({ (t.updateStatus .RUNNING) with
              execution_start_time := some env.nowStart } : Task) with
            execution_start_time := none } : Task).updateStatus .FAILED) with
          error_count := t.error_count + 1, failureCalls := t.failureCalls + 1 }) := by
      simp [Task.run, Task.checkInterrupt, Task.updateStatus, hstop, hpause, hraise]
    exact ⟨_, hrun, rfl, rfl, rfl, rfl, rfl⟩
  · intro env2 u u' h
    unfold Task.run at h
    rcases h1 : u.checkInterrupt env2.stopWait1 with ⟨b1, t1⟩
    rw [h1] at h
    obtain ⟨-, -, e1, -, -, -, -, -⟩ := checkInterrupt_frame u env2.stopWait1 b1 t1 h1
    cases b1 with
    | false =>
      dsimp only at h
      simp at h
    | true =>
      dsimp only at h
      rcases h2 : t1.checkInterrupt env2.stopWait2 with ⟨b2, t2⟩
      rw [h2] at h
      obtain ⟨-, -, e2, -, -, -, -, -⟩ := checkInterrupt_frame t1 env2.stopWait2 b2 t2 h2
      cases b2 with
      | false =>
        dsimp only at h
        simp at h
      | true =>
        dsimp only at h
        cases hbr : env2.bodyRaises with
        | true =>
          rw [hbr] at h
          simp only [if_true] at h
          simp at h
        | false =>
          rw [hbr] at h
          simp only [Bool.false_eq_true, if_false] at h
          rcases h3 : ({ (t2.updateStatus .RUNNING) with
              execution_start_time := some env2.nowStart } : Task).checkInterrupt
              env2.stopWait3 with ⟨b3, t5⟩
          rw [h3] at h
          obtain ⟨-, -, e3, -, -, -, -, -⟩ :=
            checkInterrupt_frame _ env2.stopWait3 b3 t5 h3
          cases b3 with
          | false =>
            dsimp only at h
            simp at h
          | true =>
            dsimp only at h
            cases hexec : t5.checkExecutionTime env2.nowPost with
            | false =>
              rw [hexec] at h
              simp only [Bool.not_false, if_true] at h
              simp at h
            | true =>
              rw [hexec] at h
              simp only [Bool.not_true, Bool.false_eq_true, if_false] at h
              rw [Option.map_eq_some'] at h
              obtain ⟨t8, hupd, hfeq⟩ := h
              obtain ⟨-, e8, -, -, -, -⟩ := updateNextRunTime_frame _ _ _ t8 hupd
              have hu' : u'.error_count = t8.error_count := by
                have := congrArg (fun p => p.2.error_count) hfeq
                simpa using this.symm
              rw [hu', e8]
              show t5.error_count = u.error_count
              rw [e3]
              show t2.error_count = u.error_count
              rw [e2, e1]

/-- C7 witness: the plain task run with a raising body ends FAILED with
`error_count` 1, and a successful cycle keeps `error_count` at 0. -/
theorem c7_witness :
    tPlain.stop_event = false ∧ tPlain.pause_event = true
    ∧ envRaise.bodyRaises = true
    ∧ (∃ t', tPlain.run envRaise = some (false, t')
        ∧ t'.status = .FAILED
        ∧ t'.error_count = tPlain.error_count + 1
        ∧ t'.failureCalls = tPlain.failureCalls + 1
        ∧ t'.last_run = tPlain.last_run ∧ t'.next_run = tPlain.next_run) :=
  ⟨rfl, rfl, rfl, (c7_body_error tPlain envRaise rfl rfl rfl).1⟩

/-- C10: a run cycle aborted at the post-body check solely because the
elapsed time exceeded (a nonzero) `max_running_time` — no stop or pause
requested — returns `False` while leaving the status RUNNING and the
execution-start marker set (and `last_run`/`next_run` untouched); and the
dispatcher's ready filter never selects a RUNNING task. -/
theorem c10_timeout_leaves_running (t : Task) (env : RunEnv) (m : ℕ)
    (hstop : t.stop_event = false) (hpause : t.pause_event = true)
    (hbody : env.bodyRaises = false)
    (hm : t.max_running_time = some m) (hm0 : 0 < m)
    (hexceed : m < env.nowPost - env.nowStart) :
    (∃ t', t.run env = some (false, t')
      ∧ t'.status = .RUNNING
      ∧ t'.execution_start_time = some env.nowStart
      ∧ t'.last_run = t.last_run ∧ t'.next_run = t.next_run)
    ∧ ∀ (u : Task) (now : ℕ), u.status = .RUNNING → u.ready now = false := by
  constructor
  · have hcond : 0 < m ∧ m < env.nowPost - env.nowStart := ⟨hm0, hexceed⟩
    have hrun : t.run env = some (false,
        ({ (t.updateStatus .RUNNING) with
          execution_start_time := some env.nowStart } : Task)) := by
      simp [Task.run, Task.checkInterrupt, Task.updateStatus, Task.checkExecutionTime,
        hstop, hpause, hbody, hm, hcond]
    exact ⟨_, hrun, rfl, rfl, rfl, rfl⟩
  · intro u now h
    unfold Task.ready
    rw [h]
    simp

/-- C10 witness: the 5-second-limited task, body finishing 10 s after the
execution start, aborts with status RUNNING and marker set; RUNNING tasks
fail the ready filter. -/
theorem c10_witness :
    tLimited.stop_event = false ∧ tLimited.pause_event = true
    ∧ envSlow.bodyRaises = false ∧ tLimited.max_running_time = some 5
    ∧ ((∃ t', tLimited.run envSlow = some (false, t')
        ∧ t'.status = .RUNNING
        ∧ t'.execution_start_time = some envSlow.nowStart
        ∧ t'.last_run = tLimited.last_run ∧ t'.next_run = tLimited.next_run)
      ∧ ∀ (u : Task) (now : ℕ), u.status = .RUNNING → u.ready now = false) :=
  ⟨rfl, rfl, rfl, rfl,
    c10_timeout_leaves_running tLimited envSlow 5 rfl rfl rfl rfl (by decide) (by decide)⟩

/-! Properties of the dispatcher's stable priority sort. -/

theorem mem_insertByPriority {x a : Task} {l : List Task} :
    x ∈ insertByPriority a l ↔ x = a ∨ x ∈ l := by
  induction l with
  | nil => simp [insertByPriority]
  | cons b bs ih =>
    unfold insertByPriority
    split
    · simp only [List.mem_cons, ih]
      try tauto
    · simp only [List.mem_cons]
      try tauto

theorem insertByPriority_pairwise {a : Task} {l : List Task}
    (h : l.Pairwise (fun x y => y.priority.value ≤ x.priority.value)) :
    (insertByPriority a l).Pairwise
      (fun x y => y.priority.value ≤ x.priority.value) := by
  induction l with
  | nil => simp [insertByPriority]
  | cons b bs ih =>
    rw [List.pairwise_cons] at h
    obtain ⟨hb, hbs⟩ := h
    unfold insertByPriority
    split
    · rw [List.pairwise_cons]
      refine ⟨?_, ih hbs⟩
      intro x hx
      rw [mem_insertByPriority] at hx
      rcases hx with rfl | hx
      · omega
      · exact hb x hx
    · rw [List.pairwise_cons]
      refine ⟨?_, List.pairwise_cons.mpr ⟨hb, hbs⟩⟩
      intro x hx
      rcases List.mem_cons.mp hx with rfl | hx
      · omega
      · have := hb x hx
        omega

theorem sortByPriority_sorted (ts : List Task) :
    (sortByPriority ts).Pairwise
      (fun x y => y.priority.value ≤ x.priority.value) := by
  unfold sortByPriority
  induction ts with
  | nil => simp
  | cons x xs ih =>
    rw [List.foldr_cons]
    exact insertByPriority_pairwise ih

theorem filter_insertByPriority (a : Task) (l : List Task) (p : ℕ) :
    (insertByPriority a l).filter (fun x => decide (x.priority.value = p))
      = if a.priority.value = p
        then a :: l.filter (fun x => decide (x.priority.value = p))
        else l.filter (fun x => decide (x.priority.value = p)) := by
  induction l with
  | nil =>
    unfold insertByPriority
    by_cases ha : a.priority.value = p <;> simp [List.filter, ha]
  | cons b bs ih =>
    unfold insertByPriority
    split
    · rename_i hlt
      rw [List.filter_cons, ih]
      by_cases ha : a.priority.value = p
      · have hb : ¬ b.priority.value = p := by omega
        simp [ha, hb, List.filter_cons]
      · by_cases hb : b.priority.value = p <;> simp [ha, hb, List.filter_cons]
    · rw [List.filter_cons, List.filter_cons]
      by_cases ha : a.priority.value = p <;>
        by_cases hb : b.priority.value = p <;> simp [ha, hb]

theorem sortByPriority_filter (ts : List Task) (p : ℕ) :
    (sortByPriority ts).filter (fun x => decide (x.priority.value = p))
      = ts.filter (fun x => decide (x.priority.value = p)) := by
  unfold sortByPriority
  induction ts with
  | nil => rfl
  | cons x xs ih =>
    rw [List.foldr_cons, filter_insertByPriority, List.filter_cons]
    by_cases hx : x.priority.value = p <;> simp [hx, ih]

/-- C8: every dispatcher tick executes the snapshot of due, eligible
tasks in descending priority order (the sorted output is non-increasing
in priority) with a stable tie-break on original order (for each priority
the subsequence of that priority is exactly the snapshot's, unreordered);
in particular four simultaneously due tasks registered with priorities
LOW, CRITICAL, NORMAL, HIGH execute as CRITICAL, HIGH, NORMAL, LOW. -/
theorem c8_dispatch_priority_order (ts : List Task) (now : ℕ) :
    (dispatchOrder ts now).Pairwise
        (fun x y => y.priority.value ≤ x.priority.value)
    ∧ (∀ p, (dispatchOrder ts now).filter (fun x => decide (x.priority.value = p))
        = (ts.filter (fun x => x.ready now)).filter
            (fun x => decide (x.priority.value = p)))
    ∧ (dispatchOrder fourTasks 0).map Task.name = ["crit", "high", "norm", "low"]
    ∧ (dispatchOrder fourTasks 0).map Task.priority
        = [.CRITICAL, .HIGH, .NORMAL, .LOW] := by
  exact ⟨sortByPriority_sorted _, fun p => sortByPriority_filter _ p, rfl, rfl⟩

end Sched
